import Mathlib

/-!
Shallow embedding of the foodgram-style recipe backend
(`backend/api/{models,serializers,views,filters}.py`).

The relational store is a record of row lists (`DB`).  Request handlers
become pure functions `DB → Except ApiError (DB × response)`; Django's
`transaction.atomic` becomes a runner that returns the original state on
any step failure, with environmental failures injected through a
`fails : WriteStep → Bool` oracle.
-/

/-- `User` model (`models.py`): the fields the serializers project. -/
structure AppUser where
  id : Nat
  email : String
  username : String
  first_name : String
  last_name : String
  deriving DecidableEq

/-- `Ingredient` model: name + measurement unit. -/
structure Ingredient where
  id : Nat
  name : String
  measurement_unit : String
  deriving DecidableEq

/-- `Recipe` model scalar fields; `author` is a `User` foreign key. -/
structure Recipe where
  id : Nat
  author : Nat
  name : String
  image : String
  text : String
  cooking_time : Int
  deriving DecidableEq

/-- `RecipeIngredient` join row: (recipe, ingredient) with an amount. -/
structure RecipeIngredient where
  recipe : Nat
  ingredient : Nat
  amount : Int
  deriving DecidableEq

/-- `Follow` row: `user` follows `following`. -/
structure Follow where
  user : Nat
  following : Nat
  deriving DecidableEq

/-- Common shape of the `Favorite` and `ShoppingCart` link rows. -/
structure UserRecipeLink where
  user : Nat
  recipe : Nat
  deriving DecidableEq

/-- The relational store: one list of rows per table. -/
structure DB where
  users : List AppUser
  ingredients : List Ingredient
  recipes : List Recipe
  recipeingredients : List RecipeIngredient
  recipeTags : List (Nat × Nat)
  follows : List Follow
  favorites : List UserRecipeLink
  shoppingCarts : List UserRecipeLink
  deriving DecidableEq

/-- Error outcomes a handler can produce (404 vs 400-with-message). -/
inductive ApiError where
  | notFound : ApiError
  | badRequest : String → ApiError
  deriving DecidableEq

/-- `get_object_or_404(User, id=id)`. -/
def findUser (db : DB) (uid : Nat) : Option AppUser :=
  db.users.find? (fun u => u.id == uid)

/-- `get_object_or_404(Recipe, pk=pk)`. -/
def findRecipe (db : DB) (rid : Nat) : Option Recipe :=
  db.recipes.find? (fun r => r.id == rid)

/-- Ingredient lookup by primary key (the FK dereference of the ORM join). -/
def findIngredient (db : DB) (iid : Nat) : Option Ingredient :=
  db.ingredients.find? (fun i => i.id == iid)

/-- `Follow.objects.filter(user=u, following=t).exists()`. -/
def followExists (db : DB) (u target : Nat) : Bool :=
  db.follows.any (fun f => f.user == u && f.following == target)

/-- `related_model.objects.filter(user=u, recipe=r).exists()`. -/
def linkExists (rows : List UserRecipeLink) (u rid : Nat) : Bool :=
  rows.any (fun l => l.user == u && l.recipe == rid)

/-- `CustomUserSerializer.get_is_subscribed`: anonymous callers get `false`. -/
def get_is_subscribed (db : DB) (caller : Option Nat) (authorId : Nat) : Bool :=
  match caller with
  | none => false
  | some u => followExists db u authorId

/-- `RecipeReadSerializer.get_is_favorited` (via `_get_user_recipe_status`). -/
def get_is_favorited (db : DB) (caller : Option Nat) (rid : Nat) : Bool :=
  match caller with
  | none => false
  | some u => linkExists db.favorites u rid

/-- `RecipeReadSerializer.get_is_in_shopping_cart`. -/
def get_is_in_shopping_cart (db : DB) (caller : Option Nat) (rid : Nat) : Bool :=
  match caller with
  | none => false
  | some u => linkExists db.shoppingCarts u rid

/-- Which user-recipe link table an action targets (`related_model`). -/
inductive RelatedModel where
  | favorite
  | shoppingCart
  deriving DecidableEq

/-- Rows of the chosen link table. -/
def relatedRows (db : DB) : RelatedModel → List UserRecipeLink
  | .favorite => db.favorites
  | .shoppingCart => db.shoppingCarts

/-- Replace the chosen link table. -/
def setRelatedRows (db : DB) : RelatedModel → List UserRecipeLink → DB
  | .favorite, rows => { db with favorites := rows }
  | .shoppingCart, rows => { db with shoppingCarts := rows }

/-- `error_msg_exists` argument of the `favorite` / `shopping_cart` actions. -/
def errorMsgExists : RelatedModel → String
  | .favorite => "Recipe already in favorites."
  | .shoppingCart => "Recipe already in shopping cart."

/-- `error_msg_not_exists` argument of the two actions. -/
def errorMsgNotExists : RelatedModel → String
  | .favorite => "Recipe not in favorites."
  | .shoppingCart => "Recipe not in shopping cart."

/-- `RecipeMinifiedSerializer` fields. -/
structure RecipeMinified where
  id : Nat
  name : String
  image : String
  cooking_time : Int
  deriving DecidableEq

/-- Project a recipe through `RecipeMinifiedSerializer`. -/
def minifyRecipe (r : Recipe) : RecipeMinified :=
  ⟨r.id, r.name, r.image, r.cooking_time⟩

/-- The two HTTP methods the toggle actions accept. -/
inductive HttpMethod where
  | post
  | delete
  deriving DecidableEq

/-- `RecipeViewSet._manage_user_recipe_list`: add/remove a link row,
returning the minified recipe on a successful add. -/
def manageUserRecipeList (db : DB) (caller rid : Nat) (m : RelatedModel)
    (method : HttpMethod) : Except ApiError (DB × Option RecipeMinified) :=
  match findRecipe db rid with
  | none => .error .notFound
  | some recipe =>
    let rows := relatedRows db m
    match method with
    | .post =>
      if linkExists rows caller rid then
        .error (.badRequest (errorMsgExists m))
      else
        .ok (setRelatedRows db m (rows ++ [⟨caller, rid⟩]), some (minifyRecipe recipe))
    | .delete =>
      if ! linkExists rows caller rid then
        .error (.badRequest (errorMsgNotExists m))
      else
        .ok (setRelatedRows db m
              (rows.filter (fun l => !(l.user == caller && l.recipe == rid))), none)

/-- `obj.recipes.all()`: recipes authored by `uid`. -/
def userRecipes (db : DB) (uid : Nat) : List Recipe :=
  db.recipes.filter (fun r => r.author == uid)

/-- `FollowSerializer.get_recipes`: `recipes[:limit]` slices a query
set inside the `try` that catches `ValueError`; a nonnegative limit
truncates, a negative limit raises (negative indexing unsupported), is
swallowed, and leaves the list untruncated.  `none` covers an absent,
empty or unparsable parameter. -/
def limitRecipes (l : List Recipe) : Option Int → List Recipe
  | none => l
  | some n => if 0 ≤ n then l.take n.toNat else l

/-- `FollowSerializer` output fields.  The five identity fields are
`Option`s because the framework omits a read-only field whose source
lookup fails (`none` = key absent from the response). -/
structure FollowProjection where
  email : Option String
  id : Option Nat
  username : Option String
  first_name : Option String
  last_name : Option String
  is_subscribed : Bool
  recipes : List RecipeMinified
  recipes_count : Nat
  deriving DecidableEq

/-- Serialize `target` through `FollowSerializer` for `caller`.  The
serializer declares email/id/username/first_name/last_name with source
`following.<field>`, but both call sites pass a plain user instance; on
a user, `following` is the reverse `Follow` manager, so the attribute
walk raises and the framework skips each of these fields — the response
carries only the three method fields. -/
def followProjection (db : DB) (caller : Option Nat) (target : AppUser)
    (recipesLimit : Option Int) : FollowProjection :=
  { email := none
    id := none
    username := none
    first_name := none
    last_name := none
    is_subscribed := get_is_subscribed db caller target.id
    recipes := (limitRecipes (userRecipes db target.id) recipesLimit).map minifyRecipe
    recipes_count := (userRecipes db target.id).length }

/-- `CustomUserViewSet.subscribe`, POST branch. -/
def subscribePost (db : DB) (caller targetId : Nat) (recipesLimit : Option Int) :
    Except ApiError (DB × FollowProjection) :=
  match findUser db targetId with
  | none => .error .notFound
  | some target =>
    if caller == target.id then
      .error (.badRequest "You cannot subscribe to yourself.")
    else if followExists db caller target.id then
      .error (.badRequest "You are already subscribed to this user.")
    else
      let db' : DB := { db with follows := db.follows ++ [⟨caller, target.id⟩] }
      .ok (db', followProjection db' (some caller) target recipesLimit)

/-- `CustomUserViewSet.subscribe`, DELETE branch. -/
def subscribeDelete (db : DB) (caller targetId : Nat) : Except ApiError DB :=
  match findUser db targetId with
  | none => .error .notFound
  | some target =>
    if caller == target.id then
      .error (.badRequest "You cannot subscribe to yourself.")
    else if ! followExists db caller target.id then
      .error (.badRequest "You are not subscribed to this user.")
    else
      .ok { db with
              follows := db.follows.filter
                (fun f => !(f.user == caller && f.following == target.id)) }

/-- `CustomUserViewSet.subscriptions`: `User.objects.filter(following__user=user)`
serialized through `FollowSerializer`. -/
def subscriptionsList (db : DB) (caller : Nat) (recipesLimit : Option Int) :
    List FollowProjection :=
  (db.users.filter (fun u => followExists db caller u.id)).map
    (fun u => followProjection db (some caller) u recipesLimit)

/-- One `{id, amount}` entry of the write payload
(`RecipeIngredientWriteSerializer`, references already resolved). -/
structure IngredientItem where
  id : Nat
  amount : Int
  deriving DecidableEq

/-- Validated shape of a recipe create payload (`RecipeWriteSerializer`). -/
structure RecipePayload where
  name : String
  image : String
  text : String
  cooking_time : Int
  ingredients : List IngredientItem
  tags : List Nat
  deriving DecidableEq

/-- The serializer's validation pass: field validators (`min_value=1` on
amount and cooking time) and `validate_ingredients` / `validate_tags`.
Returns the field-scoped error of the first failing rule. -/
def validateRecipePayload (p : RecipePayload) : Except (String × String) Unit :=
  if p.ingredients.any (fun i => i.amount < 1) then
    .error ("ingredients", "Amount must be at least 1.")
  else if p.cooking_time < 1 then
    .error ("cooking_time", "Cooking time must be at least 1 minute.")
  else if p.ingredients.isEmpty then
    .error ("ingredients", "At least one ingredient is required.")
  else if ¬ (p.ingredients.map IngredientItem.id).Nodup then
    .error ("ingredients", "Ingredient added more than once.")
  else if p.tags.isEmpty then
    .error ("tags", "At least one tag is required.")
  else if ¬ p.tags.Nodup then
    .error ("tags", "Tags must be unique.")
  else
    .ok ()

/-- The four sub-steps of the recipe write transaction. -/
inductive WriteStep where
  | writeRecipe
  | clearIngredients
  | insertIngredients
  | setTags
  deriving DecidableEq

/-- Order in which `create`/`update` perform the sub-steps. -/
def writeOrder : List WriteStep :=
  [.writeRecipe, .clearIngredients, .insertIngredients, .setTags]

/-- Effect of each sub-step of `RecipeWriteSerializer.create`
(plus `_add_ingredients_and_tags`). -/
def applyCreateStep (author : Nat) (p : RecipePayload) (rid : Nat) (db : DB) :
    WriteStep → DB
  | .writeRecipe =>
    { db with recipes :=
        db.recipes ++ [⟨rid, author, p.name, p.image, p.text, p.cooking_time⟩] }
  | .clearIngredients =>
    { db with recipeingredients :=
        db.recipeingredients.filter (fun ri => !(ri.recipe == rid)) }
  | .insertIngredients =>
    { db with recipeingredients :=
        db.recipeingredients ++ p.ingredients.map (fun i => ⟨rid, i.id, i.amount⟩) }
  | .setTags =>
    { db with recipeTags :=
        db.recipeTags.filter (fun t => !(t.1 == rid)) ++ p.tags.map (fun t => (rid, t)) }

/-- Validated shape of an update payload: PATCH may omit any field. -/
structure RecipeUpdatePayload where
  name : Option String
  image : Option String
  text : Option String
  cooking_time : Option Int
  ingredients : Option (List IngredientItem)
  tags : Option (List Nat)
  deriving DecidableEq

/-- `super().update(instance, validated_data)`: overwrite exactly the
supplied scalar fields. -/
def updateScalars (p : RecipeUpdatePayload) (r : Recipe) : Recipe :=
  { r with
    name := p.name.getD r.name
    image := p.image.getD r.image
    text := p.text.getD r.text
    cooking_time := p.cooking_time.getD r.cooking_time }

/-- Effect of each sub-step of `RecipeWriteSerializer.update`: the
ingredient and tag steps run only when the list was supplied. -/
def applyUpdateStep (p : RecipeUpdatePayload) (rid : Nat) (db : DB) :
    WriteStep → DB
  | .writeRecipe =>
    { db with recipes :=
        db.recipes.map (fun r => if r.id == rid then updateScalars p r else r) }
  | .clearIngredients =>
    match p.ingredients with
    | none => db
    | some _ =>
      { db with recipeingredients :=
          db.recipeingredients.filter (fun ri => !(ri.recipe == rid)) }
  | .insertIngredients =>
    match p.ingredients with
    | none => db
    | some items =>
      { db with recipeingredients :=
          db.recipeingredients ++ items.map (fun i => ⟨rid, i.id, i.amount⟩) }
  | .setTags =>
    match p.tags with
    | none => db
    | some ts =>
      { db with recipeTags :=
          db.recipeTags.filter (fun t => !(t.1 == rid)) ++ ts.map (fun t => (rid, t)) }

/-- Run the sub-steps in order; `fails` injects an environmental failure
(storage error) at a step, which aborts the remainder. -/
def runSteps (apply : DB → WriteStep → DB) (fails : WriteStep → Bool) :
    List WriteStep → DB → Except Unit DB
  | [], db => .ok db
  | s :: rest, db =>
    if fails s then .error () else runSteps apply fails rest (apply db s)

/-- Failure reported by the recipe write endpoints. -/
inductive WriteFailure where
  | validation : String → String → WriteFailure
  | transactionFailed : WriteFailure
  deriving DecidableEq

/-- Recipe create endpoint: validate, then run the four sub-steps under
`transaction.atomic` — on any step failure the state rolls back to `db`. -/
def recipeCreateEndpoint (db : DB) (author : Nat) (p : RecipePayload) (rid : Nat)
    (fails : WriteStep → Bool) : DB × Option WriteFailure :=
  match validateRecipePayload p with
  | .error e => (db, some (.validation e.1 e.2))
  | .ok _ =>
    match runSteps (applyCreateStep author p rid) fails writeOrder db with
    | .ok db' => (db', none)
    | .error _ => (db, some .transactionFailed)

/-- Recipe update endpoint on validated data, wrapped in `transaction.atomic`. -/
def recipeUpdateEndpoint (db : DB) (rid : Nat) (p : RecipeUpdatePayload)
    (fails : WriteStep → Bool) : DB × Option WriteFailure :=
  match runSteps (applyUpdateStep p rid) fails writeOrder db with
  | .ok db' => (db', none)
  | .error _ => (db, some .transactionFailed)

/-- The committed state of a failure-free update. -/
def updateRecipe (db : DB) (rid : Nat) (p : RecipeUpdatePayload) : DB :=
  (recipeUpdateEndpoint db rid p (fun _ => false)).1

/-- `RecipeIngredient` rows of one recipe. -/
def recipeIngredientRows (db : DB) (rid : Nat) : List RecipeIngredient :=
  db.recipeingredients.filter (fun ri => ri.recipe == rid)

/-- Tag link rows of one recipe. -/
def recipeTagRows (db : DB) (rid : Nat) : List (Nat × Nat) :=
  db.recipeTags.filter (fun t => t.1 == rid)

/-- `Recipe` delete (`ModelViewSet.destroy`) with the FK cascades of the
model definitions. -/
def deleteRecipe (db : DB) (rid : Nat) : DB :=
  { db with
    recipes := db.recipes.filter (fun r => !(r.id == rid))
    recipeingredients := db.recipeingredients.filter (fun ri => !(ri.recipe == rid))
    recipeTags := db.recipeTags.filter (fun t => !(t.1 == rid))
    favorites := db.favorites.filter (fun l => !(l.recipe == rid))
    shoppingCarts := db.shoppingCarts.filter (fun l => !(l.recipe == rid)) }

/-- Every state-changing operation the API exposes. -/
inductive Op where
  | subscribeTo (caller targetId : Nat)
  | unsubscribeFrom (caller targetId : Nat)
  | manageList (caller rid : Nat) (m : RelatedModel) (method : HttpMethod)
  | createR (author : Nat) (p : RecipePayload) (rid : Nat) (fails : WriteStep → Bool)
  | updateR (rid : Nat) (p : RecipeUpdatePayload) (fails : WriteStep → Bool)
  | deleteR (rid : Nat)

/-- The state after an operation (errors leave the state unchanged). -/
def applyOp (db : DB) : Op → DB
  | .subscribeTo caller targetId =>
    match subscribePost db caller targetId none with
    | .ok (db', _) => db'
    | .error _ => db
  | .unsubscribeFrom caller targetId =>
    match subscribeDelete db caller targetId with
    | .ok db' => db'
    | .error _ => db
  | .manageList caller rid m method =>
    match manageUserRecipeList db caller rid m method with
    | .ok (db', _) => db'
    | .error _ => db
  | .createR author p rid fails => (recipeCreateEndpoint db author p rid fails).1
  | .updateR rid p fails => (recipeUpdateEndpoint db rid p fails).1
  | .deleteR rid => deleteRecipe db rid

/-- The `prevent_self_follow` invariant: no stored follow row is reflexive. -/
def noSelfFollow (db : DB) : Prop :=
  ∀ f ∈ db.follows, f.user ≠ f.following

/-- `RecipeFilter._filter_user_recipe_list`: narrow to the caller's list
only when the flag is true and the caller is authenticated. -/
def filterUserRecipeList (db : DB) (caller : Option Nat) (value : Bool)
    (m : RelatedModel) (queryset : List Recipe) : List Recipe :=
  match caller with
  | some u =>
    if value then
      queryset.filter (fun r =>
        (((relatedRows db m).filter (fun l => l.user == u)).map
          UserRecipeLink.recipe).contains r.id)
    else queryset
  | none => queryset

/-- The `RecipeIngredient ⋈ Recipe ⋈ ShoppingCart` join of
`download_shopping_cart`, projected to (name, unit, amount). -/
def cartRows (db : DB) (u : Nat) : List (String × String × Int) :=
  (db.recipeingredients.filter (fun ri =>
      db.shoppingCarts.any (fun c => c.user == u && c.recipe == ri.recipe))).filterMap
    (fun ri => (findIngredient db ri.ingredient).map
      (fun ing => (ing.name, ing.measurement_unit, ri.amount)))

/-- Grouping key of the aggregation: (ingredient name, measurement unit). -/
def rowKey (r : String × String × Int) : String × String :=
  (r.1, r.2.1)

/-- Amount column of one joined row. -/
def rowAmount (r : String × String × Int) : Int :=
  r.2.2

/-- Add one row's amount into the group accumulator (`Sum('amount')`
per `(name, unit)` group, as SQL `GROUP BY` computes it). -/
def addRow : List ((String × String) × Int) → (String × String) → Int →
    List ((String × String) × Int)
  | [], k, a => [(k, a)]
  | (k', v) :: rest, k, a =>
    if k' = k then (k', v + a) :: rest else (k', v) :: addRow rest k a

/-- `values('ingredient__name', 'ingredient__measurement_unit')
.annotate(total_amount=Sum('amount'))`. -/
def aggregateRows (rows : List (String × String × Int)) :
    List ((String × String) × Int) :=
  rows.foldl (fun acc r => addRow acc (rowKey r) (rowAmount r)) []

/-- Lexicographic comparison of character lists (the collation the
database applies to `ORDER BY name`). -/
def charsLe : List Char → List Char → Bool
  | [], _ => true
  | _ :: _, [] => false
  | a :: as, b :: bs =>
    if a < b then true
    else if b < a then false
    else charsLe as bs

/-- Lexicographic string comparison. -/
def strLe (a b : String) : Bool :=
  charsLe a.data b.data

/-- `order_by('ingredient__name')`: compare groups by ingredient name. -/
def byName (p q : (String × String) × Int) : Prop :=
  strLe p.1.1 q.1.1 = true

instance : DecidableRel byName :=
  fun p q => inferInstanceAs (Decidable (strLe p.1.1 q.1.1 = true))

/-- The aggregated, name-sorted shopping list of the caller's cart. -/
def shoppingItems (db : DB) (u : Nat) : List ((String × String) × Int) :=
  List.insertionSort byName (aggregateRows (cartRows db u))

/-- One output line: `- <name> (<unit>): <summed amount>`. -/
def renderShoppingLine (item : (String × String) × Int) : String :=
  "- " ++ item.1.1 ++ " (" ++ item.1.2 ++ "): " ++ toString item.2 ++ "\n"

/-- The fixed title line of the export. -/
def shoppingListTitle : String :=
  "Foodgram Shopping List:\n\n"

/-- `RecipeViewSet.download_shopping_cart`: reject an empty cart, else
emit the title plus one line per aggregated ingredient group. -/
def downloadShoppingCart (db : DB) (u : Nat) : Except ApiError String :=
  if ! db.shoppingCarts.any (fun c => c.user == u) then
    .error (.badRequest "Shopping cart is empty.")
  else
    .ok (shoppingListTitle ++ String.join ((shoppingItems db u).map renderShoppingLine))

/-- Total of the values stored under key `k` in a group accumulator. -/
def sumFor (l : List ((String × String) × Int)) (k : String × String) : Int :=
  ((l.filter (fun q => decide (q.1 = k))).map Prod.snd).sum

/-- Total amount of the joined rows whose key is `k`: the value the spec
assigns to the `(name, unit)` group. -/
def rowSum (rows : List (String × String × Int)) (k : String × String) : Int :=
  ((rows.filter (fun r => decide (rowKey r = k))).map rowAmount).sum

/-- Concrete store realizing the spec's worked example: user 1's cart
holds recipes 1 and 2, both using flour (g), amounts 200 and 300. -/
def flourDb : DB :=
  { users := [⟨1, "alice@example.com", "alice", "Alice", "Lang"⟩,
              ⟨2, "bob@example.com", "bob", "Bob", "Moss"⟩]
    ingredients := [⟨1, "flour", "g"⟩]
    recipes := [⟨1, 2, "Bread", "bread.png", "bake it", 30⟩,
                ⟨2, 2, "Cake", "cake.png", "mix it", 40⟩]
    recipeingredients := [⟨1, 1, 200⟩, ⟨2, 1, 300⟩]
    recipeTags := [(1, 1), (2, 1)]
    follows := []
    favorites := []
    shoppingCarts := [⟨1, 1⟩, ⟨1, 2⟩] }

/-- A payload satisfying every validation rule. -/
def samplePayload : RecipePayload :=
  ⟨"Bread", "bread.png", "bake it", 30, [⟨1, 200⟩], [1]⟩

/-- An update payload supplying only the name. -/
def sampleUpdatePayload : RecipeUpdatePayload :=
  ⟨some "Rye Bread", none, none, none, none, none⟩

/-! ## Theorems -/

/-- Claim C6: for an anonymous caller, the `is_favorited`,
`is_in_shopping_cart`, and author `is_subscribed` flags of the recipe read
projection are false for every recipe and every store. -/
theorem anonymous_flags_false (db : DB) (rid authorId : Nat) :
    get_is_favorited db none rid = false ∧
    get_is_in_shopping_cart db none rid = false ∧
    get_is_subscribed db none authorId = false :=
  ⟨rfl, rfl, rfl⟩

/-- Claim C4: the shopping-list export fails with the "cart is empty"
error exactly when the caller's cart has no rows, and succeeds (returning
a document) exactly when the cart is non-empty. -/
theorem download_shopping_cart_empty_iff (db : DB) (u : Nat) :
    (db.shoppingCarts.any (fun c => c.user == u) = false →
      downloadShoppingCart db u = .error (.badRequest "Shopping cart is empty.")) ∧
    (∀ e, downloadShoppingCart db u = .error e →
      db.shoppingCarts.any (fun c => c.user == u) = false ∧
      e = .badRequest "Shopping cart is empty.") ∧
    ((∃ s, downloadShoppingCart db u = .ok s) ↔
      db.shoppingCarts.any (fun c => c.user == u) = true) := by
  unfold downloadShoppingCart
  cases h : db.shoppingCarts.any (fun c => c.user == u) <;> simp [h]

/-- Witness for C4 at a concrete store: user 2 has an empty cart. -/
theorem download_shopping_cart_empty_iff_witness :
    downloadShoppingCart flourDb 2 = .error (.badRequest "Shopping cart is empty.") :=
  (download_shopping_cart_empty_iff flourDb 2).1 (by decide)

/-- Claim C9: the favorited-only / in-cart-only filter restricts the
queryset to recipes in the caller's link set exactly when the value is
true and the caller is authenticated; otherwise it returns the queryset
unchanged, and in every case it only narrows. -/
theorem filter_user_recipe_list_spec (db : DB) (caller : Option Nat) (value : Bool)
    (m : RelatedModel) (queryset : List Recipe) :
    (∀ u, caller = some u → value = true →
      filterUserRecipeList db caller value m queryset =
        queryset.filter (fun r =>
          (((relatedRows db m).filter (fun l => l.user == u)).map
            UserRecipeLink.recipe).contains r.id)) ∧
    (value = false → filterUserRecipeList db caller value m queryset = queryset) ∧
    (caller = none → filterUserRecipeList db caller value m queryset = queryset) ∧
    (filterUserRecipeList db caller value m queryset).Sublist queryset ∧
    (∀ u, caller = some u → value = true → ∀ r,
      (r ∈ filterUserRecipeList db caller value m queryset ↔
        r ∈ queryset ∧ ∃ l ∈ relatedRows db m, l.user = u ∧ l.recipe = r.id)) := by
  refine ⟨?_, ?_, ?_, ?_, ?_⟩
  · rintro u rfl rfl
    rfl
  · rintro rfl
    cases caller <;> rfl
  · rintro rfl
    rfl
  · cases caller with
    | none => exact List.Sublist.refl _
    | some u =>
      cases value with
      | false => exact List.Sublist.refl _
      | true => exact List.filter_sublist _
  · rintro u rfl rfl r
    show r ∈ List.filter _ queryset ↔ _
    simp only [List.mem_filter, List.contains_eq_any_beq, List.any_eq_true, List.mem_map,
      List.mem_filter, beq_iff_eq]
    constructor
    · rintro ⟨hr, x, ⟨l, hl, rfl⟩, hx⟩
      exact ⟨hr, l, hl.1, hl.2, hx.symm⟩
    · rintro ⟨hr, l, hl, hlu, hid⟩
      exact ⟨hr, l.recipe, ⟨l, ⟨hl, hlu⟩, rfl⟩, hid.symm⟩

/-- Witness for C9 at a concrete store. -/
theorem filter_user_recipe_list_spec_witness :
    filterUserRecipeList flourDb (some 1) true .favorite flourDb.recipes = [] :=
  (filter_user_recipe_list_spec flourDb (some 1) true .favorite flourDb.recipes).1
    1 rfl rfl

/-- Claim C3: the recipe write payload validation accepts exactly the
payloads with a non-empty duplicate-free ingredient list, a non-empty
duplicate-free tag list, every amount at least 1, and cooking time at
least 1; every rejection carries a field-scoped error, and a rejected
payload leaves the store unchanged. -/
theorem recipe_payload_validation (p : RecipePayload) :
    (validateRecipePayload p = .ok () ↔
      (p.ingredients ≠ [] ∧ (p.ingredients.map IngredientItem.id).Nodup ∧
       p.tags ≠ [] ∧ p.tags.Nodup ∧
       (∀ i ∈ p.ingredients, 1 ≤ i.amount) ∧ 1 ≤ p.cooking_time)) ∧
    (∀ f msg, validateRecipePayload p = .error (f, msg) →
      f = "ingredients" ∨ f = "tags" ∨ f = "cooking_time") ∧
    (∀ db author rid fails f msg,
      validateRecipePayload p = .error (f, msg) →
      recipeCreateEndpoint db author p rid fails = (db, some (.validation f msg))) := by
  refine ⟨?_, ?_, ?_⟩
  · unfold validateRecipePayload
    split_ifs with h1 h2 h3 h4 h5 h6 <;>
      constructor <;> intro h <;>
      first
        | exact h.elim
        | trivial
        | (obtain ⟨hne, hnodup, htne, htnodup, hamt, hct⟩ := h
           first
             | (obtain ⟨i, hi, hlt⟩ := List.any_eq_true.mp h1
                have h1lt : i.amount < 1 := by simpa using hlt
                have h1le := hamt i hi
                omega)
             | omega
             | exact hne (List.isEmpty_iff.mp h3)
             | exact h4 hnodup
             | exact htne (List.isEmpty_iff.mp h5)
             | exact h6 htnodup)
        | (refine ⟨fun he => h3 (by simp [he]), h4, fun he => h5 (by simp [he]), h6,
             fun i hi => ?_, by omega⟩
           by_contra hlt
           exact h1 (List.any_eq_true.mpr ⟨i, hi, decide_eq_true (by omega)⟩))
  · intro f msg
    unfold validateRecipePayload
    split_ifs <;> intro h <;>
      simp only [Except.error.injEq, Prod.mk.injEq, reduceCtorEq] at h <;>
      first
        | exact Or.inl h.1.symm
        | exact Or.inr (Or.inl h.1.symm)
        | exact Or.inr (Or.inr h.1.symm)
  · intro db author rid fails f msg h
    unfold recipeCreateEndpoint
    rw [h]

/-- Witness for C3: a rule-satisfying payload is accepted. -/
theorem recipe_payload_validation_witness :
    validateRecipePayload samplePayload = .ok () :=
  (recipe_payload_validation samplePayload).1.mpr (by decide)

/-- A failure at any sub-step aborts the step runner. -/
theorem runSteps_error_of_fails (apply : DB → WriteStep → DB) (fails : WriteStep → Bool) :
    ∀ steps db, (∃ s ∈ steps, fails s = true) →
      runSteps apply fails steps db = .error () := by
  intro steps
  induction steps with
  | nil =>
    rintro db ⟨s, hs, _⟩
    cases hs
  | cons a rest ih =>
    rintro db ⟨s, hs, hf⟩
    unfold runSteps
    by_cases ha : fails a = true
    · rw [if_pos ha]
    · rw [if_neg ha]
      rcases List.mem_cons.mp hs with rfl | hmem
      · exact absurd hf ha
      · exact ih _ ⟨s, hmem, hf⟩

/-- Rows cleared for a recipe contribute nothing to that recipe's rows. -/
theorem ri_cleared_filter_nil (l : List RecipeIngredient) (rid : Nat) :
    (l.filter (fun ri => !(ri.recipe == rid))).filter (fun ri => ri.recipe == rid) = [] := by
  rw [List.filter_eq_nil_iff]
  intro ri hri
  simp only [List.mem_filter, Bool.not_eq_true'] at hri
  simp [hri.2]

/-- Freshly inserted rows all belong to the written recipe. -/
theorem ri_inserted_filter_self (items : List IngredientItem) (rid : Nat) :
    ((items.map (fun i => (⟨rid, i.id, i.amount⟩ : RecipeIngredient))).filter
      (fun ri => ri.recipe == rid)) = items.map (fun i => ⟨rid, i.id, i.amount⟩) := by
  rw [List.filter_eq_self]
  intro a ha
  obtain ⟨i, _, rfl⟩ := List.mem_map.mp ha
  simp

/-- Tag links cleared for a recipe contribute nothing to that recipe's links. -/
theorem tag_cleared_filter_nil (l : List (Nat × Nat)) (rid : Nat) :
    (l.filter (fun t => !(t.1 == rid))).filter (fun t => t.1 == rid) = [] := by
  rw [List.filter_eq_nil_iff]
  intro t ht
  simp only [List.mem_filter, Bool.not_eq_true'] at ht
  simp [ht.2]

/-- Freshly set tag links all belong to the written recipe. -/
theorem tag_set_filter_self (ts : List Nat) (rid : Nat) :
    ((ts.map (fun t => (rid, t))).filter (fun t => t.1 == rid)) =
      ts.map (fun t => (rid, t)) := by
  rw [List.filter_eq_self]
  intro a ha
  obtain ⟨t, _, rfl⟩ := List.mem_map.mp ha
  simp

/-- Claim C2: recipe create and update run their four sub-steps
all-or-nothing: any sub-step failure (and any validation failure) leaves
the store exactly as before, and a failure-free create commits the recipe
row, exactly the supplied ingredient rows, and exactly the supplied tag
set. -/
theorem recipe_write_transactional (db : DB) (author : Nat) (p : RecipePayload)
    (rid : Nat) (pu : RecipeUpdatePayload) (fails : WriteStep → Bool) :
    (∀ e, (recipeCreateEndpoint db author p rid fails).2 = some e →
      (recipeCreateEndpoint db author p rid fails).1 = db) ∧
    (∀ e, (recipeUpdateEndpoint db rid pu fails).2 = some e →
      (recipeUpdateEndpoint db rid pu fails).1 = db) ∧
    ((∃ s ∈ writeOrder, fails s = true) →
      (recipeCreateEndpoint db author p rid fails).1 = db ∧
      (recipeUpdateEndpoint db rid pu fails).1 = db) ∧
    (validateRecipePayload p = .ok () → (∀ s, fails s = false) →
      (recipeCreateEndpoint db author p rid fails).2 = none ∧
      (⟨rid, author, p.name, p.image, p.text, p.cooking_time⟩ : Recipe) ∈
        (recipeCreateEndpoint db author p rid fails).1.recipes ∧
      recipeIngredientRows (recipeCreateEndpoint db author p rid fails).1 rid =
        p.ingredients.map (fun i => ⟨rid, i.id, i.amount⟩) ∧
      recipeTagRows (recipeCreateEndpoint db author p rid fails).1 rid =
        p.tags.map (fun t => (rid, t))) := by
  refine ⟨?_, ?_, ?_, ?_⟩
  · intro e he
    unfold recipeCreateEndpoint at he ⊢
    cases hv : validateRecipePayload p with
    | error err => simp only [hv]
    | ok u =>
      cases u
      simp only [hv] at he ⊢
      cases hrun : runSteps (applyCreateStep author p rid) fails writeOrder db with
      | error uu => simp only [hrun]
      | ok db' =>
        rw [hrun] at he
        cases he
  · intro e he
    unfold recipeUpdateEndpoint at he ⊢
    cases hrun : runSteps (applyUpdateStep pu rid) fails writeOrder db with
    | error uu => simp only [hrun]
    | ok db' =>
      rw [hrun] at he
      cases he
  · intro hex
    constructor
    · unfold recipeCreateEndpoint
      cases hv : validateRecipePayload p with
      | error err => simp only [hv]
      | ok u =>
        cases u
        simp only [hv, runSteps_error_of_fails (applyCreateStep author p rid) fails
          writeOrder db hex]
    · unfold recipeUpdateEndpoint
      simp only [runSteps_error_of_fails (applyUpdateStep pu rid) fails
        writeOrder db hex]
  · intro hv hnf
    have hrun : runSteps (applyCreateStep author p rid) fails writeOrder db =
        .ok (applyCreateStep author p rid
              (applyCreateStep author p rid
                (applyCreateStep author p rid
                  (applyCreateStep author p rid db .writeRecipe)
                  .clearIngredients)
                .insertIngredients)
              .setTags) := by
      simp [runSteps, writeOrder, hnf]
    have hfinal : (recipeCreateEndpoint db author p rid fails) =
        (applyCreateStep author p rid
          (applyCreateStep author p rid
            (applyCreateStep author p rid
              (applyCreateStep author p rid db .writeRecipe)
              .clearIngredients)
            .insertIngredients)
          .setTags, none) := by
      unfold recipeCreateEndpoint
      rw [hv, hrun]
    rw [hfinal]
    refine ⟨rfl, ?_, ?_, ?_⟩
    · simp [applyCreateStep]
    · simp only [applyCreateStep, recipeIngredientRows]
      rw [List.filter_append, ri_cleared_filter_nil, ri_inserted_filter_self,
        List.nil_append]
    · simp only [applyCreateStep, recipeTagRows]
      rw [List.filter_append, tag_cleared_filter_nil, tag_set_filter_self,
        List.nil_append]

/-- Witness for C2: with every step failing, the create endpoint reports
a failure and leaves the concrete store untouched. -/
theorem recipe_write_transactional_witness :
    (recipeCreateEndpoint flourDb 2 samplePayload 3 (fun _ => true)).1 = flourDb :=
  (recipe_write_transactional flourDb 2 samplePayload 3 sampleUpdatePayload
      (fun _ => true)).1 .transactionFailed (by decide)

/-- Claim C10: an update whose payload omits the ingredient list (resp.
the tag list) leaves the stored ingredient rows (resp. tag links)
untouched; only supplied scalar fields change, every other table is
untouched, and wholesale replacement happens exactly when a list is
supplied. -/
theorem recipe_update_frame (db : DB) (rid : Nat) (p : RecipeUpdatePayload) :
    (p.ingredients = none →
      (updateRecipe db rid p).recipeingredients = db.recipeingredients) ∧
    (p.tags = none → (updateRecipe db rid p).recipeTags = db.recipeTags) ∧
    (updateRecipe db rid p).users = db.users ∧
    (updateRecipe db rid p).ingredients = db.ingredients ∧
    (updateRecipe db rid p).follows = db.follows ∧
    (updateRecipe db rid p).favorites = db.favorites ∧
    (updateRecipe db rid p).shoppingCarts = db.shoppingCarts ∧
    (updateRecipe db rid p).recipes =
      db.recipes.map (fun r => if r.id == rid then updateScalars p r else r) ∧
    (∀ r : Recipe,
      (p.name = none → (updateScalars p r).name = r.name) ∧
      (p.image = none → (updateScalars p r).image = r.image) ∧
      (p.text = none → (updateScalars p r).text = r.text) ∧
      (p.cooking_time = none → (updateScalars p r).cooking_time = r.cooking_time) ∧
      (updateScalars p r).id = r.id ∧ (updateScalars p r).author = r.author) ∧
    (∀ items, p.ingredients = some items →
      recipeIngredientRows (updateRecipe db rid p) rid =
        items.map (fun i => ⟨rid, i.id, i.amount⟩)) ∧
    (∀ ts, p.tags = some ts →
      recipeTagRows (updateRecipe db rid p) rid = ts.map (fun t => (rid, t))) := by
  rcases hi : p.ingredients with _ | items <;> rcases ht : p.tags with _ | ts <;>
    refine ⟨?_, ?_, ?_, ?_, ?_, ?_, ?_, ?_, ?_, ?_, ?_⟩ <;>
      simp_all [updateRecipe, recipeUpdateEndpoint, runSteps, writeOrder, applyUpdateStep,
        updateScalars, recipeIngredientRows, recipeTagRows, List.filter_append,
        ri_cleared_filter_nil, ri_inserted_filter_self, tag_cleared_filter_nil,
        tag_set_filter_self]

/-- Witness for C10: an update supplying only a name keeps the concrete
store's ingredient rows unchanged. -/
theorem recipe_update_frame_witness :
    (updateRecipe flourDb 1 sampleUpdatePayload).recipeingredients =
      flourDb.recipeingredients :=
  (recipe_update_frame flourDb 1 sampleUpdatePayload).1 rfl

/-- Claim C7: the favorite / shopping-cart actions 404 on an unknown
recipe before any link check; the add fails with the "already added"
conflict exactly when the link exists; the remove fails with "not
present" exactly when it does not; and a successful add returns the
minified projection (id, name, image, cooking time) of the recipe. -/
theorem manage_user_recipe_list_spec (db : DB) (caller rid : Nat) (m : RelatedModel) :
    (findRecipe db rid = none → ∀ method,
      manageUserRecipeList db caller rid m method = .error .notFound) ∧
    (∀ r, findRecipe db rid = some r →
      (linkExists (relatedRows db m) caller rid = true →
        manageUserRecipeList db caller rid m .post =
          .error (.badRequest (errorMsgExists m))) ∧
      (linkExists (relatedRows db m) caller rid = false →
        manageUserRecipeList db caller rid m .post =
          .ok (setRelatedRows db m (relatedRows db m ++ [⟨caller, rid⟩]),
               some ⟨r.id, r.name, r.image, r.cooking_time⟩)) ∧
      (linkExists (relatedRows db m) caller rid = false →
        manageUserRecipeList db caller rid m .delete =
          .error (.badRequest (errorMsgNotExists m))) ∧
      (linkExists (relatedRows db m) caller rid = true →
        manageUserRecipeList db caller rid m .delete =
          .ok (setRelatedRows db m ((relatedRows db m).filter
                (fun l => !(l.user == caller && l.recipe == rid))), none))) := by
  constructor
  · intro hnone method
    unfold manageUserRecipeList
    rw [hnone]
  · intro r hr
    refine ⟨?_, ?_, ?_, ?_⟩ <;> intro hl <;>
      simp [manageUserRecipeList, hr, hl, minifyRecipe]

/-- Witness for C7: adding recipe 1 to user 1's favorites in the
concrete store succeeds and returns its minified projection. -/
theorem manage_user_recipe_list_spec_witness :
    manageUserRecipeList flourDb 1 1 .favorite .post =
      .ok (setRelatedRows flourDb .favorite (relatedRows flourDb .favorite ++ [⟨1, 1⟩]),
           some ⟨1, "Bread", "bread.png", 30⟩) :=
  ((manage_user_recipe_list_spec flourDb 1 1 .favorite).2
    ⟨1, 2, "Bread", "bread.png", "bake it", 30⟩ (by decide)).2.1 (by decide)

/-- Inversion of a successful subscribe: the target resolved, it is not
the caller, no follow row existed, and the new state appends exactly one
follow row whose projection is returned. -/
theorem subscribePost_ok_inv (db : DB) (c t : Nat) (recipesLimit : Option Int)
    (db' : DB) (proj : FollowProjection)
    (hok : subscribePost db c t recipesLimit = .ok (db', proj)) :
    ∃ target, findUser db t = some target ∧ target.id = t ∧ c ≠ target.id ∧
      followExists db c target.id = false ∧
      db' = { db with follows := db.follows ++ [⟨c, target.id⟩] } ∧
      proj = followProjection db' (some c) target recipesLimit := by
  unfold subscribePost at hok
  cases hf : findUser db t with
  | none =>
    simp only [hf] at hok
    cases hok
  | some target =>
    simp only [hf] at hok
    have hid : target.id = t := by simpa using List.find?_some hf
    by_cases h1 : (c == target.id) = true
    · rw [if_pos h1] at hok
      cases hok
    · rw [if_neg h1] at hok
      by_cases h2 : followExists db c target.id = true
      · rw [if_pos h2] at hok
        cases hok
      · rw [if_neg h2] at hok
        simp only [Except.ok.injEq, Prod.mk.injEq] at hok
        refine ⟨target, rfl, hid, by simpa using h1, by simpa using h2,
          hok.1.symm, ?_⟩
        rw [← hok.1]
        exact hok.2.symm

/-- Inversion of a successful unsubscribe: the new follow table is a
filtering of the old one. -/
theorem subscribeDelete_ok_inv (db : DB) (c t : Nat) (db' : DB)
    (hok : subscribeDelete db c t = .ok db') :
    ∃ target, findUser db t = some target ∧
      db' = { db with follows :=
        (db.follows.filter (fun f => !(f.user == c && f.following == target.id))) } := by
  unfold subscribeDelete at hok
  cases hf : findUser db t with
  | none =>
    simp only [hf] at hok
    cases hok
  | some target =>
    simp only [hf] at hok
    by_cases h1 : (c == target.id) = true
    · rw [if_pos h1] at hok
      cases hok
    · rw [if_neg h1] at hok
      by_cases h2 : followExists db c target.id = true
      · rw [if_neg (show ¬((! followExists db c target.id) = true) by simp [h2])] at hok
        simp only [Except.ok.injEq] at hok
        exact ⟨target, rfl, hok.symm⟩
      · rw [if_pos (show (! followExists db c target.id) = true by simpa using h2)] at hok
        cases hok

/-- Replacing a link table never touches the follow table. -/
theorem setRelatedRows_follows (db : DB) (m : RelatedModel) (rows : List UserRecipeLink) :
    (setRelatedRows db m rows).follows = db.follows := by
  cases m <;> rfl

/-- A successful favorite/cart toggle never touches the follow table. -/
theorem manageUserRecipeList_ok_follows (db : DB) (c rid : Nat) (m : RelatedModel)
    (method : HttpMethod) (db' : DB) (resp : Option RecipeMinified)
    (hok : manageUserRecipeList db c rid m method = .ok (db', resp)) :
    db'.follows = db.follows := by
  unfold manageUserRecipeList at hok
  cases hf : findRecipe db rid with
  | none =>
    simp only [hf] at hok
    cases hok
  | some r =>
    simp only [hf] at hok
    cases method with
    | post =>
      by_cases hl : linkExists (relatedRows db m) c rid = true
      · rw [if_pos hl] at hok
        cases hok
      · rw [if_neg hl] at hok
        simp only [Except.ok.injEq, Prod.mk.injEq] at hok
        rw [← hok.1, setRelatedRows_follows]
    | delete =>
      by_cases hl : linkExists (relatedRows db m) c rid = true
      · rw [if_neg (show ¬((! linkExists (relatedRows db m) c rid) = true) by
          simp [hl])] at hok
        simp only [Except.ok.injEq, Prod.mk.injEq] at hok
        rw [← hok.1, setRelatedRows_follows]
      · rw [if_pos (show (! linkExists (relatedRows db m) c rid) = true by
          simpa using hl)] at hok
        cases hok

/-- A committed step run preserves any table the steps preserve. -/
theorem runSteps_ok_follows (apply : DB → WriteStep → DB) (fails : WriteStep → Bool)
    (hpres : ∀ d s, (apply d s).follows = d.follows) :
    ∀ steps db db', runSteps apply fails steps db = .ok db' → db'.follows = db.follows := by
  intro steps
  induction steps with
  | nil =>
    intro db db' hok
    cases hok
    rfl
  | cons a rest ih =>
    intro db db' hok
    unfold runSteps at hok
    by_cases ha : fails a = true
    · rw [if_pos ha] at hok
      cases hok
    · rw [if_neg ha] at hok
      rw [ih _ _ hok, hpres]

/-- Each create sub-step leaves the follow table alone. -/
theorem applyCreateStep_follows (author : Nat) (p : RecipePayload) (rid : Nat)
    (d : DB) (s : WriteStep) :
    (applyCreateStep author p rid d s).follows = d.follows := by
  cases s <;> rfl

/-- Each update sub-step leaves the follow table alone. -/
theorem applyUpdateStep_follows (p : RecipeUpdatePayload) (rid : Nat)
    (d : DB) (s : WriteStep) :
    (applyUpdateStep p rid d s).follows = d.follows := by
  rcases hpi : p.ingredients with _ | items <;> rcases hpt : p.tags with _ | ts <;>
    cases s <;> simp [applyUpdateStep, hpi, hpt]

/-- Claim C5: a follow attempt whose target equals the caller fails
whatever the prior state is, and the no-self-follow invariant is
preserved by every state-changing operation of the API. -/
theorem no_self_follow_invariant (db : DB) (caller : Nat) (op : Op)
    (h : noSelfFollow db) :
    (∃ e, ∀ recipesLimit, subscribePost db caller caller recipesLimit = .error e) ∧
    noSelfFollow (applyOp db op) := by
  constructor
  · cases hf : findUser db caller with
    | none =>
      refine ⟨.notFound, fun recipesLimit => ?_⟩
      unfold subscribePost
      rw [hf]
    | some t =>
      have hid : t.id = caller := by simpa using List.find?_some hf
      refine ⟨.badRequest "You cannot subscribe to yourself.", fun recipesLimit => ?_⟩
      unfold subscribePost
      rw [hf]
      simp [hid]
  · cases op with
    | subscribeTo c t =>
      cases hs : subscribePost db c t none with
      | error e =>
        have heq : applyOp db (.subscribeTo c t) = db := by simp [applyOp, hs]
        rw [heq]
        exact h
      | ok pair =>
        obtain ⟨db', proj⟩ := pair
        have heq : applyOp db (.subscribeTo c t) = db' := by simp [applyOp, hs]
        rw [heq]
        obtain ⟨target, -, -, hne, -, rfl, -⟩ :=
          subscribePost_ok_inv db c t none db' proj hs
        intro f hmem
        rcases List.mem_append.mp hmem with hold | hnew
        · exact h f hold
        · rw [List.mem_singleton] at hnew
          rw [hnew]
          exact hne
    | unsubscribeFrom c t =>
      cases hs : subscribeDelete db c t with
      | error e =>
        have heq : applyOp db (.unsubscribeFrom c t) = db := by simp [applyOp, hs]
        rw [heq]
        exact h
      | ok db' =>
        have heq : applyOp db (.unsubscribeFrom c t) = db' := by simp [applyOp, hs]
        rw [heq]
        obtain ⟨target, -, rfl⟩ := subscribeDelete_ok_inv db c t db' hs
        intro f hmem
        exact h f (List.mem_of_mem_filter hmem)
    | manageList c rid m method =>
      cases hs : manageUserRecipeList db c rid m method with
      | error e =>
        have heq : applyOp db (.manageList c rid m method) = db := by simp [applyOp, hs]
        rw [heq]
        exact h
      | ok pair =>
        obtain ⟨db', resp⟩ := pair
        have heq : applyOp db (.manageList c rid m method) = db' := by simp [applyOp, hs]
        rw [heq]
        intro f hmem
        rw [manageUserRecipeList_ok_follows db c rid m method db' resp hs] at hmem
        exact h f hmem
    | createR author p rid fails =>
      cases hv : validateRecipePayload p with
      | error e =>
        have heq : applyOp db (.createR author p rid fails) = db := by
          simp [applyOp, recipeCreateEndpoint, hv]
        rw [heq]
        exact h
      | ok u =>
        cases u
        cases hs : runSteps (applyCreateStep author p rid) fails writeOrder db with
        | error e =>
          have heq : applyOp db (.createR author p rid fails) = db := by
            simp [applyOp, recipeCreateEndpoint, hv, hs]
          rw [heq]
          exact h
        | ok db' =>
          have heq : applyOp db (.createR author p rid fails) = db' := by
            simp [applyOp, recipeCreateEndpoint, hv, hs]
          rw [heq]
          intro f hmem
          rw [runSteps_ok_follows (applyCreateStep author p rid) fails
            (applyCreateStep_follows author p rid) writeOrder db db' hs] at hmem
          exact h f hmem
    | updateR rid p fails =>
      cases hs : runSteps (applyUpdateStep p rid) fails writeOrder db with
      | error e =>
        have heq : applyOp db (.updateR rid p fails) = db := by
          simp [applyOp, recipeUpdateEndpoint, hs]
        rw [heq]
        exact h
      | ok db' =>
        have heq : applyOp db (.updateR rid p fails) = db' := by
          simp [applyOp, recipeUpdateEndpoint, hs]
        rw [heq]
        intro f hmem
        rw [runSteps_ok_follows (applyUpdateStep p rid) fails
          (applyUpdateStep_follows p rid) writeOrder db db' hs] at hmem
        exact h f hmem
    | deleteR rid =>
      have heq : applyOp db (.deleteR rid) = deleteRecipe db rid := by simp [applyOp]
      rw [heq]
      intro f hmem
      exact h f hmem

/-- Witness for C5 at a concrete store: the self-subscribe of user 1
fails and a subscribe operation preserves the invariant. -/
theorem no_self_follow_invariant_witness :
    (∃ e, ∀ recipesLimit, subscribePost flourDb 1 1 recipesLimit = .error e) ∧
    noSelfFollow (applyOp flourDb (.subscribeTo 1 2)) :=
  no_self_follow_invariant flourDb 1 (.subscribeTo 1 2) (by simp [noSelfFollow, flourDb])

/-- Claim C8: refuted by the code — the subscribe response omits the
identity fields.  The serializer reads email, id, username, first and
last name through source `following.<field>`, but the views serialize
plain user instances, whose `following` attribute is the reverse follow
manager; the failed lookup makes the framework skip each field, so the
response carries only `is_subscribed` (true), the minified recipes and
the recipe count.  Evaluated here at a concrete successful subscribe. -/
theorem subscribe_projection_omits_identity_fields :
    ∃ db' proj, subscribePost flourDb 1 2 none = .ok (db', proj) ∧
      proj.email = none ∧ proj.id = none ∧ proj.username = none ∧
      proj.first_name = none ∧ proj.last_name = none ∧
      proj.is_subscribed = true ∧
      proj.recipes = (userRecipes flourDb 2).map minifyRecipe ∧
      proj.recipes_count = (userRecipes flourDb 2).length :=
  ⟨_, _, rfl, rfl, rfl, rfl, rfl, rfl, by decide, rfl, rfl⟩

/-- The lexicographic comparison is total. -/
theorem charsLe_total : ∀ as bs, charsLe as bs = true ∨ charsLe bs as = true := by
  intro as
  induction as with
  | nil => exact fun bs => Or.inl rfl
  | cons a as ih =>
    intro bs
    cases bs with
    | nil => exact Or.inr rfl
    | cons b bs =>
      by_cases hab : a < b
      · exact Or.inl (by simp [charsLe, hab])
      · by_cases hba : b < a
        · exact Or.inr (by simp [charsLe, hba])
        · rcases ih bs with h | h
          · exact Or.inl (by simp [charsLe, hab, hba, h])
          · exact Or.inr (by simp [charsLe, hab, hba, h])

/-- The lexicographic comparison is transitive. -/
theorem charsLe_trans : ∀ as bs cs, charsLe as bs = true → charsLe bs cs = true →
    charsLe as cs = true := by
  intro as
  induction as with
  | nil => intros; rfl
  | cons a as ih =>
    intro bs cs h1 h2
    cases bs with
    | nil => simp [charsLe] at h1
    | cons b bs =>
      cases cs with
      | nil => simp [charsLe] at h2
      | cons c cs =>
        simp only [charsLe] at h1 h2 ⊢
        by_cases hab : a < b
        · by_cases hbc : b < c
          · simp [lt_trans hab hbc]
          · by_cases hcb : c < b
            · simp [hbc, hcb] at h2
            · have hbceq : b = c := le_antisymm (not_lt.mp hcb) (not_lt.mp hbc)
              subst hbceq
              simp [hab]
        · by_cases hba : b < a
          · simp [hab, hba] at h1
          · have habeq : a = b := le_antisymm (not_lt.mp hba) (not_lt.mp hab)
            subst habeq
            simp only [lt_irrefl, if_false] at h1
            by_cases hac : a < c
            · simp [hac]
            · by_cases hca : c < a
              · simp [hac, hca] at h2
              · have haceq : a = c := le_antisymm (not_lt.mp hca) (not_lt.mp hac)
                subst haceq
                simp only [lt_irrefl, if_false] at h2 ⊢
                exact ih bs cs h1 h2

/-- Unfolding `sumFor` over a cons cell. -/
theorem sumFor_cons (k0 : String × String) (v : Int)
    (l : List ((String × String) × Int)) (k : String × String) :
    sumFor ((k0, v) :: l) k = (if k0 = k then v else 0) + sumFor l k := by
  by_cases hk : k0 = k <;> simp [sumFor, hk]

/-- Adding a row into the accumulator adds its amount to exactly its key. -/
theorem sumFor_addRow (acc : List ((String × String) × Int)) (k : String × String)
    (a : Int) (k' : String × String) :
    sumFor (addRow acc k a) k' = sumFor acc k' + (if k = k' then a else 0) := by
  induction acc with
  | nil =>
    by_cases hk : k = k' <;> simp [addRow, sumFor, hk]
  | cons head rest ih =>
    obtain ⟨k0, v⟩ := head
    show sumFor (if k0 = k then (k0, v + a) :: rest else (k0, v) :: addRow rest k a) k' = _
    by_cases h0 : k0 = k
    · rw [if_pos h0]
      subst h0
      rw [sumFor_cons, sumFor_cons]
      by_cases hk : k0 = k'
      · rw [if_pos hk, if_pos hk, if_pos hk]
        omega
      · rw [if_neg hk, if_neg hk, if_neg hk]
        omega
    · rw [if_neg h0, sumFor_cons, sumFor_cons, ih]
      omega

/-- Keys after `addRow`: the old keys plus the inserted key. -/
theorem mem_keys_addRow (acc : List ((String × String) × Int)) (k : String × String)
    (a : Int) (k' : String × String) :
    (k' ∈ (addRow acc k a).map Prod.fst ↔ k' ∈ acc.map Prod.fst ∨ k' = k) := by
  induction acc with
  | nil => simp [addRow]
  | cons head rest ih =>
    obtain ⟨k0, v⟩ := head
    by_cases h0 : k0 = k
    · subst h0
      simp [addRow]
      tauto
    · simp [addRow, h0, ih]
      tauto

/-- `addRow` keeps the keys duplicate-free. -/
theorem nodup_keys_addRow (acc : List ((String × String) × Int)) (k : String × String)
    (a : Int) (h : (acc.map Prod.fst).Nodup) :
    ((addRow acc k a).map Prod.fst).Nodup := by
  induction acc with
  | nil => simp [addRow]
  | cons head rest ih =>
    obtain ⟨k0, v⟩ := head
    simp only [List.map_cons, List.nodup_cons] at h
    by_cases h0 : k0 = k
    · subst h0
      simpa [addRow] using h
    · simp only [addRow, h0, if_false, List.map_cons, List.nodup_cons]
      refine ⟨?_, ih h.2⟩
      rw [mem_keys_addRow]
      rintro (hc | hc)
      · exact h.1 hc
      · exact h0 hc

/-- Unfolding `rowSum` over a cons cell. -/
theorem rowSum_cons (r : String × String × Int) (rows : List (String × String × Int))
    (k : String × String) :
    rowSum (r :: rows) k = (if rowKey r = k then rowAmount r else 0) + rowSum rows k := by
  by_cases hk : rowKey r = k <;> simp [rowSum, hk]

/-- Keys of the grouped aggregation: exactly the keys of the joined rows. -/
theorem mem_keys_aggregate (rows : List (String × String × Int)) :
    ∀ acc k,
      (k ∈ (rows.foldl (fun a r => addRow a (rowKey r) (rowAmount r)) acc).map Prod.fst ↔
        k ∈ acc.map Prod.fst ∨ ∃ r ∈ rows, rowKey r = k) := by
  induction rows with
  | nil => simp
  | cons r rest ih =>
    intro acc k
    simp only [List.foldl_cons, ih, mem_keys_addRow, List.mem_cons]
    constructor
    · rintro ((h | rfl) | ⟨r', hr', hk⟩)
      · exact Or.inl h
      · exact Or.inr ⟨r, Or.inl rfl, rfl⟩
      · exact Or.inr ⟨r', Or.inr hr', hk⟩
    · rintro (h | ⟨r', hr' | hr', hk⟩)
      · exact Or.inl (Or.inl h)
      · subst hr'
        exact Or.inl (Or.inr hk.symm)
      · exact Or.inr ⟨r', hr', hk⟩

/-- The grouped aggregation has duplicate-free keys. -/
theorem nodup_keys_aggregate (rows : List (String × String × Int)) :
    ∀ acc, (acc.map Prod.fst).Nodup →
      ((rows.foldl (fun a r => addRow a (rowKey r) (rowAmount r)) acc).map Prod.fst).Nodup := by
  induction rows with
  | nil => exact fun acc h => h
  | cons r rest ih =>
    intro acc h
    exact ih _ (nodup_keys_addRow acc (rowKey r) (rowAmount r) h)

/-- The aggregated value of each key is the sum over rows with that key. -/
theorem sumFor_aggregate (rows : List (String × String × Int)) :
    ∀ acc k,
      sumFor (rows.foldl (fun a r => addRow a (rowKey r) (rowAmount r)) acc) k =
        sumFor acc k + rowSum rows k := by
  induction rows with
  | nil =>
    intro acc k
    simp [rowSum]
  | cons r rest ih =>
    intro acc k
    simp only [List.foldl_cons, ih, sumFor_addRow, rowSum_cons]
    omega

/-- A key absent from an accumulator sums to zero. -/
theorem sumFor_eq_zero_of_not_mem (l : List ((String × String) × Int))
    (k : String × String) (h : k ∉ l.map Prod.fst) : sumFor l k = 0 := by
  induction l with
  | nil => rfl
  | cons head rest ih =>
    obtain ⟨k0, v⟩ := head
    simp only [List.map_cons, List.mem_cons] at h
    push_neg at h
    rw [sumFor_cons, if_neg (Ne.symm h.1), ih h.2]
    omega

/-- With duplicate-free keys, a stored pair's value is the key's sum. -/
theorem sumFor_eq_of_mem (l : List ((String × String) × Int))
    (k : String × String) (v : Int) (hnd : (l.map Prod.fst).Nodup)
    (hmem : (k, v) ∈ l) : sumFor l k = v := by
  induction l with
  | nil => cases hmem
  | cons head rest ih =>
    obtain ⟨k0, v0⟩ := head
    simp only [List.map_cons, List.nodup_cons] at hnd
    rcases List.mem_cons.mp hmem with heq | hmem'
    · injection heq with h1 h2
      subst h1
      subst h2
      rw [sumFor_cons, if_pos rfl, sumFor_eq_zero_of_not_mem rest k hnd.1]
      omega
    · have hk0 : k0 ≠ k := by
        intro hk
        subst hk
        exact hnd.1 (List.mem_map.mpr ⟨(k0, v), hmem', rfl⟩)
      rw [sumFor_cons, if_neg hk0, ih hnd.2 hmem']
      omega

/-- Claim C1: for a caller with a non-empty cart the export succeeds with
the fixed title followed by one `- <name> (<unit>): <sum>` line per
(ingredient name, unit) group of the cart's joined ingredient rows; the
groups are duplicate-free, cover exactly the joined rows' keys, carry the
summed amounts, and are sorted by ingredient name ascending. -/
theorem download_shopping_cart_spec (db : DB) (u : Nat)
    (h : db.shoppingCarts.any (fun c => c.user == u) = true) :
    downloadShoppingCart db u =
      .ok (shoppingListTitle ++
        String.join ((shoppingItems db u).map renderShoppingLine)) ∧
    ((shoppingItems db u).map Prod.fst).Nodup ∧
    (∀ k, k ∈ (shoppingItems db u).map Prod.fst ↔ ∃ r ∈ cartRows db u, rowKey r = k) ∧
    (∀ k v, (k, v) ∈ shoppingItems db u → v = rowSum (cartRows db u) k) ∧
    (shoppingItems db u).Pairwise byName := by
  have hperm : List.Perm (shoppingItems db u) (aggregateRows (cartRows db u)) :=
    List.perm_insertionSort byName (aggregateRows (cartRows db u))
  have hnd : ((aggregateRows (cartRows db u)).map Prod.fst).Nodup :=
    nodup_keys_aggregate (cartRows db u) [] (by simp)
  refine ⟨?_, ?_, ?_, ?_, ?_⟩
  · simp [downloadShoppingCart, h]
  · exact ((hperm.map Prod.fst).nodup_iff).mpr hnd
  · intro k
    rw [(hperm.map Prod.fst).mem_iff]
    unfold aggregateRows
    simpa using mem_keys_aggregate (cartRows db u) [] k
  · intro k v hmem
    have hmem' : (k, v) ∈ aggregateRows (cartRows db u) := hperm.mem_iff.mp hmem
    have hval := sumFor_eq_of_mem (aggregateRows (cartRows db u)) k v hnd hmem'
    have hsum := sumFor_aggregate (cartRows db u) [] k
    unfold aggregateRows at hval
    rw [show sumFor ([] : List ((String × String) × Int)) k = 0 from rfl] at hsum
    omega
  · exact @List.sorted_insertionSort _ byName _
      ⟨fun a b => charsLe_total a.1.1.data b.1.1.data⟩
      ⟨fun a b c h1 h2 => charsLe_trans a.1.1.data b.1.1.data c.1.1.data h1 h2⟩
      (aggregateRows (cartRows db u))

/-- Witness for C1: the spec's flour example — amounts 200 and 300 from
two cart recipes merge into the single line `- flour (g): 500`. -/
theorem download_shopping_cart_spec_witness :
    downloadShoppingCart flourDb 1 =
      .ok "Foodgram Shopping List:\n\n- flour (g): 500\n" :=
  ((download_shopping_cart_spec flourDb 1 (by decide)).1).trans
    (congrArg Except.ok (by decide))
